import Mathlib

/-!
# Verification of the download-orchestration and model-state subsystem

Shallow embedding of the core of the LLManager dashboard:

* the streaming pull proxy (`POST /api/pull-stream` handler in
  `src/app/[locale]/create/page.tsx`): newline-delimited JSON progress
  decoding, buffer carry-over between chunks, the end-of-stream buffer
  flush and the synthetic final success event;
* the client download manager (`DownloadManagerProvider` in
  `src/components/ChatInterface.tsx`): per-task state machine, cancellation
  via abort controllers, refresh (`mutate`) side effects, `clearCompleted`;
* the model state aggregation (`src/hooks/useModels.ts` with the
  `/api/models` and `/api/running` proxies in `src/pages/api`): the SWR
  fetcher, the name join over running models and the derived fields from
  `src/lib/utils.ts`.

JavaScript strings are embedded as `List Char`, JSON numbers that the code
treats as byte counts as `Nat`, timestamps as integers (epoch
milliseconds), and `JSON.parse` of a status line is abstracted as a
function parameter `parse : List Char → Option DaemonLine`, so that no
concrete JSON grammar is baked in.  JavaScript `Math.round`/`Math.floor`
on the (exactly representable) values occurring here are modelled over
`ℚ`/`ℤ` as round-half-up and floor.
-/

/-- A parsed daemon pull status line (`{ status?, digest?, total?,
completed?, error? }`, cf. `§6` and the fields read by the handler in
`create/page.tsx`).  Absent JSON fields are `none`. -/
structure DaemonLine where
  status : Option String := none
  digest : Option String := none
  total : Option Nat := none
  completed : Option Nat := none
  error : Option String := none
deriving DecidableEq

/-- JavaScript truthiness of an optional string: present and nonempty. -/
def jsTruthyStr : Option String → Bool
  | some s => !s.isEmpty
  | none => false

/-- JavaScript truthiness of an optional number: present and nonzero. -/
def jsTruthyNat : Option Nat → Bool
  | some n => n != 0
  | none => false

/-- JavaScript `Math.round` (half away from zero is half up for the
nonnegative values concerned), modelled on `ℚ`. -/
def jsRound (q : ℚ) : ℤ := ⌊q + 1/2⌋

/-- `Math.round((completed / total) * 100)` for natural counts and nonzero
`total`: round-half-up of `100 * completed / total`, computed in integer
arithmetic as `(200 * completed + total) / (2 * total)`. -/
def roundPercent (completed total : Nat) : Nat :=
  (200 * completed + total) / (2 * total)

/-- The SSE progress object written by the pull-stream handler
(`progressData` in `create/page.tsx`): `{ status, digest?, total?,
completed?, percent?, done?, error? }`.  The `done` field is only ever
written as `true`, so an absent field and `false` coincide (the client
only tests it for truthiness). -/
structure ProgressData where
  status : String
  digest : Option String := none
  total : Option Nat := none
  completed : Option Nat := none
  percent : Option Nat := none
  done : Bool := false
  error : Option String := none
deriving DecidableEq

/-- `data.status || 'unknown'`: the default used by the handler both in the
per-line loop and in the end-of-stream buffer flush. -/
def statusOrUnknown : Option String → String
  | some s => if s.isEmpty then "unknown" else s
  | none => "unknown"

/-- The per-line transformation of the pull-stream handler
(`create/page.tsx` lines 469-511): copy `digest`/`total`/`completed` when
present (`digest` when truthy), compute `percent` from
`Math.round((completed/total)*100)` when both are truthy, set `done` on
`status === 'success'`, copy a truthy `error`. -/
def mkProgressData (d : DaemonLine) : ProgressData where
  status := statusOrUnknown d.status
  digest := if jsTruthyStr d.digest then d.digest else none
  total := d.total
  completed := d.completed
  percent :=
    if jsTruthyNat d.total && jsTruthyNat d.completed then
      some (roundPercent (d.completed.getD 0) (d.total.getD 0))
    else none
  done := d.status == some "success"
  error := if jsTruthyStr d.error then d.error else none

/-- `line.trim()` is falsy exactly when the line is all whitespace. -/
def isBlank (l : List Char) : Bool := l.all Char.isWhitespace

/-- JavaScript `buffer.split('\n')`: split at every newline, keeping empty
segments; the result always has at least one segment. -/
def splitNl : List Char → List (List Char)
  | [] => [[]]
  | c :: cs =>
    if c = '\n' then [] :: splitNl cs
    else
      match splitNl cs with
      | [] => [[c]]
      | s :: rest => (c :: s) :: rest

/-- One iteration of the handler's per-line loop body: skip a line whose
trimmed form is falsy, otherwise `JSON.parse` it (a throw, i.e. `none`, is
swallowed) and write the transformed progress object. -/
def emitLine (parse : List Char → Option DaemonLine) (line : List Char) :
    Option ProgressData :=
  if isBlank line then none
  else
    match parse line with
    | some d => some (mkProgressData d)
    | none => none

/-- The end-of-stream buffer flush (`create/page.tsx` lines 519-530): if
the leftover buffer is nonblank and parses, write a reduced event carrying
only `status` and `done`. -/
def flushLeftover (parse : List Char → Option DaemonLine) (buffer : List Char) :
    List ProgressData :=
  if isBlank buffer then []
  else
    match parse buffer with
    | some d => [{ status := statusOrUnknown d.status, done := d.status == some "success" }]
    | none => []

/-- The unconditional completion event `{ done: true, status: 'success' }`
written after the daemon stream closes (`create/page.tsx` line 533). -/
def finalSuccessEvent : ProgressData := { status := "success", done := true }

/-- The handler's read loop: append each chunk to the carried buffer, split
on newlines, keep the last segment as the new buffer, emit the complete
lines; at end of stream flush the buffer and append the completion
event. -/
def pullStreamGo (parse : List Char → Option DaemonLine) :
    List Char → List (List Char) → List ProgressData
  | buffer, [] => flushLeftover parse buffer ++ [finalSuccessEvent]
  | buffer, chunk :: chunks =>
    let parts := splitNl (buffer ++ chunk)
    parts.dropLast.filterMap (emitLine parse) ++
      pullStreamGo parse (parts.getLastD []) chunks

/-- The whole event sequence the pull-stream handler writes for a daemon
byte stream delivered as `chunks` (transport errors aside). -/
def pullStreamEvents (parse : List Char → Option DaemonLine)
    (chunks : List (List Char)) : List ProgressData :=
  pullStreamGo parse [] chunks

/-- Chunking-independent description of the same processing: split the full
concatenated stream, emit one event per complete line in order, flush the
trailing segment, append the completion event. -/
def processedOf (parse : List Char → Option DaemonLine) (s : List Char) :
    List ProgressData :=
  ((splitNl s).dropLast).filterMap (emitLine parse) ++
    flushLeftover parse ((splitNl s).getLastD []) ++ [finalSuccessEvent]

/-!
## Download manager (`DownloadManagerProvider` in `ChatInterface.tsx`)

One task's supervising routine is modelled as a step function over an
explicit state; the interleaving of stream lines, stream end, transport
errors and user cancellation is a trace of events.  `hasController` is
membership of the task's `AbortController` in the provider's map (deleted
by `cancelDownload` and by the routine's `finally`); `streamOpen` is
whether the supervising `startStream` routine is still running.  `clock`
is an abstract millisecond counter standing in for `Date.now()` /
`new Date()`, advanced once per observed event.
-/

/-- `DownloadStatus` from `ChatInterface.tsx`. -/
inductive DownloadStatus
  | pending
  | downloading
  | completed
  | error
  | cancelled
deriving DecidableEq

/-- `DownloadItem` from `ChatInterface.tsx`; `Date` values are epoch
milliseconds. -/
structure DownloadItem where
  id : String
  modelName : String
  status : DownloadStatus
  statusText : String
  progress : Nat
  total : Option Nat := none
  completed : Option Nat := none
  error : Option String := none
  startedAt : Nat
  completedAt : Option Nat := none
deriving DecidableEq

/-- State of one download task inside the provider. -/
structure TaskState where
  item : DownloadItem
  hasController : Bool
  streamOpen : Bool
  mutateCount : Nat
  clock : Nat
deriving DecidableEq

/-- Events observable by one task's supervising routine. -/
inductive ClientEv
  /-- the initiating `fetch` resolved with an ok streaming response -/
  | fetchOk
  /-- one parsed `data:` SSE line (JSON round-trip elided) -/
  | line (d : ProgressData)
  /-- `cancelDownload(id)` was called -/
  | cancel
  /-- `reader.read()` reported `done` -/
  | streamEnd
  /-- the fetch or a read rejected with a non-abort error -/
  | transportErr (msg : String)
deriving DecidableEq

/-- One step of the task: the code paths of `startStream`,
`cancelDownload` and the `catch`/`finally` blocks
(`ChatInterface.tsx` lines 568-703). -/
def step (s : TaskState) (ev : ClientEv) : TaskState :=
  let now := s.clock
  let s := { s with clock := s.clock + 1 }
  match ev with
  | .fetchOk =>
    -- `updateDownload(id, { status: 'downloading' })` after the ok check
    if s.streamOpen then
      { s with item := { s.item with status := .downloading } }
    else s
  | .line d =>
    if s.streamOpen then
      if jsTruthyStr d.error then
        -- daemon-reported error: mark failed and `return` from the routine;
        -- the `finally` clears the abort controller
        { s with
          item := { s.item with
            status := .error
            statusText := d.error.getD ""
            error := d.error
            completedAt := some now }
          streamOpen := false
          hasController := false }
      else
        let it := { s.item with
          statusText := if d.status.isEmpty then "Downloading..." else d.status }
        let it := match d.percent with
          | some p => { it with progress := p }
          | none => it
        let it := match d.total with
          | some t => { it with total := some t }
          | none => it
        let it := match d.completed with
          | some c => { it with completed := some c }
          | none => it
        if d.done && d.status == "success" then
          -- completion event: freeze progress at 100 and `mutate('/api/models')`;
          -- note the routine keeps reading the stream
          { s with
            item := { it with
              status := .completed
              progress := 100
              statusText := "Download complete!"
              completedAt := some now }
            mutateCount := s.mutateCount + 1 }
        else { s with item := it }
    else s
  | .cancel =>
    -- `cancelDownload`: abort and delete the controller if present; a
    -- pending read then rejects with `AbortError` and the catch block
    -- marks the task cancelled
    if s.hasController then
      if s.streamOpen then
        { s with
          item := { s.item with
            status := .cancelled
            statusText := "Download cancelled"
            completedAt := some now }
          hasController := false
          streamOpen := false }
      else { s with hasController := false }
    else s
  | .streamEnd =>
    -- loop exit: mark as completed (and `mutate`) only if still
    -- `'downloading'`; the `finally` clears the controller
    if s.streamOpen then
      let s' :=
        if s.item.status = .downloading then
          { s with
            item := { s.item with
              status := .completed
              progress := 100
              statusText := "Download complete!"
              completedAt := some now }
            mutateCount := s.mutateCount + 1 }
        else s
      { s' with streamOpen := false, hasController := false }
    else s
  | .transportErr msg =>
    -- non-abort catch: mark failed; the `finally` clears the controller
    if s.streamOpen then
      { s with
        item := { s.item with
          status := .error
          statusText := if msg.isEmpty then "Download failed" else msg
          error := some msg
          completedAt := some now }
        streamOpen := false
        hasController := false }
    else s

/-- Run a task through a trace of events. -/
def runTrace (s : TaskState) (evs : List ClientEv) : TaskState :=
  evs.foldl step s

/-- The task identifier minted by `startDownload`:
`` `${modelName}-${Date.now()}` ``. -/
def mkDownloadId (modelName : String) (now : Nat) : String :=
  modelName ++ "-" ++ toString now

/-- The `DownloadItem` created by `startDownload` before the stream
starts. -/
def newDownloadItem (id modelName : String) (now : Nat) : DownloadItem where
  id := id
  modelName := modelName
  status := .pending
  statusText := "Starting download..."
  progress := 0
  startedAt := now

/-- The provider's observable task list. -/
structure RegistryState where
  downloads : List DownloadItem
deriving DecidableEq

/-- The synchronous part of `startDownload`: mint the id, append the fresh
item, return the id. -/
def startDownload (s : RegistryState) (modelName : String) (now : Nat) :
    String × RegistryState :=
  let id := mkDownloadId modelName now
  (id, { downloads := s.downloads ++ [newDownloadItem id modelName now] })

/-- `clearCompleted` (`ChatInterface.tsx` lines 716-720): keep only tasks
whose status is none of `'completed' | 'error' | 'cancelled'`. -/
def clearCompleted (downloads : List DownloadItem) : List DownloadItem :=
  downloads.filter fun d =>
    decide (d.status ≠ .completed ∧ d.status ≠ .error ∧ d.status ≠ .cancelled)

/-- Fresh task state right after `startDownload` ran its synchronous part:
item pending, abort controller registered, supervising routine launched. -/
def initialTask (id modelName : String) (now : Nat) : TaskState where
  item := newDownloadItem id modelName now
  hasController := true
  streamOpen := true
  mutateCount := 0
  clock := now + 1

/-- A task consuming a whole SSE event list from an intact stream: fetch
resolves ok, every event line arrives in order, then the stream ends. -/
def clientRun (id modelName : String) (events : List ProgressData) : TaskState :=
  runTrace (initialTask id modelName 0)
    (.fetchOk :: (events.map ClientEv.line ++ [.streamEnd]))

/-!
## Model state aggregation (`useModels.ts`, `pages/api/models.ts`,
`pages/api/running.ts`, `lib/utils.ts`)

Installed and running model records follow `types/ollama.ts`.  The
daemon's `expires_at` ISO timestamp string is embedded as its epoch
millisecond value, and "now" is passed explicitly where the source reads
`Date.now()`.
-/

/-- `OllamaModel` (`types/ollama.ts`): an installed model. -/
structure OllamaModel where
  name : String
  modified_at : String := ""
  digest : Option String := none
  size : Nat
deriving DecidableEq

/-- `OllamaRunningModel` (`types/ollama.ts`): a loaded model instance. -/
structure OllamaRunningModel where
  model : String
  expires_at : Option Int := none
  size : Nat
  size_vram : Nat
deriving DecidableEq

/-- `round(num, decimals)` from `lib/utils.ts`:
`Math.round(num * 10^d) / 10^d`. -/
def roundDec (num : ℚ) (decimals : Nat) : ℚ :=
  (jsRound (num * 10 ^ decimals) : ℚ) / 10 ^ decimals

/-- `bytesToGB` from `lib/utils.ts`: `round(bytes / 1024^3, 3)`. -/
def bytesToGB (bytes : Nat) : ℚ :=
  roundDec ((bytes : ℚ) / 1024 ^ 3) 3

/-- `getTimeUntilExpiry` from `lib/utils.ts`: `null` when absent, else
`Math.floor((expiry - now) / 1000)` if positive, `null` otherwise. -/
def getTimeUntilExpiry (expiresAt : Option Int) (now : Int) : Option Int :=
  match expiresAt with
  | none => none
  | some expiry =>
    let diff := Int.fdiv (expiry - now) 1000
    if diff > 0 then some diff else none

/-- `ModelWithState` (`types/ollama.ts`): the unified view entry. -/
structure ModelWithState where
  name : String
  modified_at : String
  digest : Option String
  size : Nat
  disk_gb : ℚ
  loaded : Bool
  running : Option OllamaRunningModel := none
  vram_gb : Option ℚ := none
  ram_gb : Option ℚ := none
  expires_at : Option Int := none
  expires_in_seconds : Option Int := none
deriving DecidableEq

/-- The `runningMap` of `useModelsWithState`: a `Map` filled by `forEach`
with `set(model.model, model)` — later records overwrite earlier ones —
then queried with `get(name)`. -/
def runningMapGet (running : List OllamaRunningModel) (name : String) :
    Option OllamaRunningModel :=
  running.foldl (fun acc m => if m.model = name then some m else acc) none

/-- The per-model join of `useModelsWithState` (`useModels.ts` lines
85-101). -/
def joinOne (running : List OllamaRunningModel) (now : Int)
    (model : OllamaModel) : ModelWithState :=
  let runningModel := runningMapGet running model.name
  let expiresIn :=
    match runningModel with
    | some r =>
      match r.expires_at with
      | some t => getTimeUntilExpiry (some t) now
      | none => none
    | none => none
  { name := model.name
    modified_at := model.modified_at
    digest := model.digest
    size := model.size
    disk_gb := bytesToGB model.size
    loaded := runningModel.isSome
    running := runningModel
    vram_gb :=
      match runningModel with
      | some r => some (bytesToGB r.size_vram)
      | none => none
    ram_gb :=
      match runningModel with
      | some r => some (bytesToGB r.size)
      | none => none
    expires_at :=
      match runningModel with
      | some r => r.expires_at
      | none => none
    expires_in_seconds := expiresIn }

/-- `useModelsWithState`: the published unified view. -/
def modelsWithState (installed : List OllamaModel)
    (running : List OllamaRunningModel) (now : Int) : List ModelWithState :=
  installed.map (joinOne running now)

/-- What a `/api/models` or `/api/running` proxy response body can be:
either a model list payload or an error payload (both are JSON). -/
inductive ApiBody
  | models (models : List OllamaModel)
  | errorBody (msg : String)
deriving DecidableEq

/-- An HTTP response from the proxy. -/
structure HttpResponse where
  status : Nat
  body : ApiBody
deriving DecidableEq

/-- Outcome of the proxy's axios call against the daemon. -/
inductive DaemonResult
  | ok (models : List OllamaModel)
  | fail (msg : String)
deriving DecidableEq

/-- The `/api/models` proxy (`pages/api/models.ts`): 200 with the model
list on success (the per-model `size || 0` defaulting is the identity on
`Nat` sizes), 500 with a JSON error body when the daemon call throws. -/
def modelsProxy : DaemonResult → HttpResponse
  | .ok ms => { status := 200, body := .models ms }
  | .fail msg => { status := 500, body := .errorBody msg }

/-- What happens to the browser's `fetch` of the proxy: either a response
arrives or the fetch itself rejects. -/
inductive Transport
  | respond (r : HttpResponse)
  | networkFail (msg : String)
deriving DecidableEq

/-- Result of the SWR fetcher promise. -/
inductive FetchResult
  | resolved (b : ApiBody)
  | rejected (msg : String)
deriving DecidableEq

/-- The SWR fetcher of `useModels.ts` (lines 8-27):
`fetch(url, { headers }).then((res) => res.json())`.  It never inspects
`res.ok` or `res.status`, and both proxy bodies are valid JSON, so any
received response resolves with its parsed body; only a network-level
failure rejects. -/
def fetcher : Transport → FetchResult
  | .respond r => .resolved r.body
  | .networkFail msg => .rejected msg

/-- The SWR cache entry for one key. -/
structure SwrState where
  data : Option ApiBody := none
  error : Option String := none
deriving DecidableEq

/-- Cache update on one revalidation, modelling the external `useSWR`
library's documented behaviour: a fetcher that resolves replaces `data`
and clears `error`; a fetcher that rejects leaves the previous `data` in
place and records the error. -/
def swrUpdate (s : SwrState) : FetchResult → SwrState
  | .resolved b => { data := some b, error := none }
  | .rejected e => { s with error := some e }

/-- One refresh cycle of the installed-models source. -/
def refreshInstalled (s : SwrState) (t : Transport) : SwrState :=
  swrUpdate s (fetcher t)

/-- The model list the hook exposes to observers:
`data?.models || []`. -/
def exposedModels (s : SwrState) : List OllamaModel :=
  match s.data with
  | some (.models ms) => ms
  | some (.errorBody _) => []
  | none => []

/-!
## Concrete fixtures

`JSON.parse` is a function parameter of the decoder, so concrete runs use
small table-driven parse functions; the raw line text is irrelevant to the
decoder beyond newline positions, blankness and parse outcome, so the
fixtures use short markers in place of JSON object syntax.
-/

/-- Glue for splitting concatenations: prepend a segment to the head of a
segment list. -/
def glueSeg (x : List Char) : List (List Char) → List (List Char)
  | [] => [x]
  | y :: t => (x ++ y) :: t

/-- Prepending segments: glue the head of the second split onto the last
segment of the first. -/
def glueAll : List (List Char) → List (List Char) → List (List Char)
  | [], ys => ys
  | [x], ys => glueSeg x ys
  | x :: xs, ys => x :: glueAll xs ys

/-- Two well-formed status lines, `alpha` and `beta`; anything else is
malformed. -/
def c2Parse : List Char → Option DaemonLine := fun l =>
  if l = "alpha".data then some { status := some "alpha" }
  else if l = "beta".data then some { status := some "beta" }
  else none

/-- A daemon stream whose own last status line is `success`. -/
def c5Parse : List Char → Option DaemonLine := fun l =>
  if l = "ok".data then some { status := some "success" }
  else none

/-- A well-formed line, a malformed line, a well-formed line. -/
def c6Parse : List Char → Option DaemonLine := fun l =>
  if l = "alpha".data then some { status := some "alpha" }
  else if l = "gamma".data then some { status := some "gamma" }
  else none

/-- The daemon stream of §8's third property:
`{status:"downloading", completed:50, total:100}` then
`{status:"success"}`. -/
def c7Parse : List Char → Option DaemonLine := fun l =>
  if l = "dl50".data then
    some { status := some "downloading", completed := some 50, total := some 100 }
  else if l = "ok".data then some { status := some "success" }
  else none

/-- An installed model on the dashboard before a failing refresh. -/
def sampleModel : OllamaModel :=
  { name := "llama3.2", modified_at := "2024-01-01", digest := some "sha", size := 42 }

/-- SWR state after a successful earlier refresh published `sampleModel`. -/
def sampleSwrState : SwrState :=
  { data := some (.models [sampleModel]), error := none }


/-- §8's example running record: model `A` loaded with 4 GiB of VRAM,
8 GiB of RAM, expiring 300 seconds after epoch. -/
def runningA : OllamaRunningModel :=
  { model := "A", expires_at := some 300000, size := 8 * 1024 ^ 3, size_vram := 4 * 1024 ^ 3 }

/-- §8's example installed record: model `A`, 10 GiB on disk. -/
def installedA : OllamaModel := { name := "A", size := 10 * 1024 ^ 3 }

/-!
## Helper lemmas: newline splitting is chunking-independent
-/

theorem splitNl_nil : splitNl [] = [[]] := rfl

theorem splitNl_cons_newline (cs : List Char) :
    splitNl ('\n' :: cs) = [] :: splitNl cs := by
  simp [splitNl]

theorem splitNl_cons_other {c : Char} (hc : c ≠ '\n') (cs : List Char) :
    splitNl (c :: cs) =
      match splitNl cs with
      | [] => [[c]]
      | s :: rest => (c :: s) :: rest := by
  simp [splitNl, hc]

theorem splitNl_ne_nil (l : List Char) : splitNl l ≠ [] := by
  cases l with
  | nil => simp [splitNl]
  | cons c cs =>
    by_cases hc : c = '\n'
    · subst hc; simp [splitNl_cons_newline]
    · rw [splitNl_cons_other hc]
      cases hs : splitNl cs <;> simp

theorem glueSeg_ne_nil (x : List Char) (l : List (List Char)) :
    glueSeg x l ≠ [] := by
  cases l <;> simp [glueSeg]

theorem getLastD_of_ne_nil {α : Type} {l : List α} (h : l ≠ []) (a b : α) :
    l.getLastD a = l.getLastD b := by
  cases l with
  | nil => exact absurd rfl h
  | cons x xs => rw [List.getLastD_cons, List.getLastD_cons]

theorem glueAll_cons_of_ne_nil (x : List Char) {xs : List (List Char)}
    (h : xs ≠ []) (ys : List (List Char)) :
    glueAll (x :: xs) ys = x :: glueAll xs ys := by
  cases xs with
  | nil => exact absurd rfl h
  | cons a t => rfl

theorem glueAll_eq_dropLast_glueSeg {P : List (List Char)} (h : P ≠ [])
    (Q : List (List Char)) :
    glueAll P Q = P.dropLast ++ glueSeg (P.getLastD []) Q := by
  induction P with
  | nil => exact absurd rfl h
  | cons x xs ih =>
    cases xs with
    | nil => simp [glueAll, glueSeg, List.getLastD_cons]
    | cons y t =>
      rw [glueAll_cons_of_ne_nil x (by simp) Q, ih (by simp)]
      simp [List.getLastD_cons]

theorem splitNl_append (a b : List Char) :
    splitNl (a ++ b) = glueAll (splitNl a) (splitNl b) := by
  induction a with
  | nil =>
    cases hb : splitNl b with
    | nil => exact absurd hb (splitNl_ne_nil b)
    | cons y t => simp [splitNl_nil, glueAll, glueSeg, hb]
  | cons c a' ih =>
    by_cases hc : c = '\n'
    · subst hc
      cases ha : splitNl a' with
      | nil => exact absurd ha (splitNl_ne_nil a')
      | cons s rest =>
        rw [List.cons_append, splitNl_cons_newline, ih, ha,
          splitNl_cons_newline, ha,
          glueAll_cons_of_ne_nil ([] : List Char) (by simp) (splitNl b)]
    · cases ha : splitNl a' with
      | nil => exact absurd ha (splitNl_ne_nil a')
      | cons sa ra =>
        cases ra with
        | nil =>
          cases hb : splitNl b with
          | nil => exact absurd hb (splitNl_ne_nil b)
          | cons y t =>
            rw [List.cons_append, splitNl_cons_other hc, ih, ha,
              splitNl_cons_other hc, ha]
            simp [glueAll, glueSeg, hb]
        | cons sa2 ra2 =>
          rw [List.cons_append, splitNl_cons_other hc, ih, ha,
            splitNl_cons_other hc, ha,
            glueAll_cons_of_ne_nil sa (by simp) (splitNl b),
            glueAll_cons_of_ne_nil (c :: sa) (by simp) (splitNl b)]

theorem splitNl_append_split (a b : List Char) :
    splitNl (a ++ b) =
      (splitNl a).dropLast ++ glueSeg ((splitNl a).getLastD []) (splitNl b) := by
  rw [splitNl_append, glueAll_eq_dropLast_glueSeg (splitNl_ne_nil a)]

theorem splitNl_of_no_newline {l : List Char} (h : '\n' ∉ l) :
    splitNl l = [l] := by
  induction l with
  | nil => rfl
  | cons c cs ih =>
    have hc : ¬(c = '\n') := fun e => h (e ▸ List.mem_cons_self c cs)
    have hcs : '\n' ∉ cs := fun m => h (List.mem_cons_of_mem _ m)
    rw [splitNl_cons_other hc, ih hcs]

theorem no_newline_getLastD_splitNl (l : List Char) :
    '\n' ∉ (splitNl l).getLastD [] := by
  induction l with
  | nil => simp [splitNl_nil, List.getLastD_cons]
  | cons c cs ih =>
    by_cases hc : c = '\n'
    · subst hc
      rw [splitNl_cons_newline, List.getLastD_cons,
        getLastD_of_ne_nil (splitNl_ne_nil cs) ([] : List Char) ([] : List Char)]
      exact ih
    · cases hs : splitNl cs with
      | nil => exact absurd hs (splitNl_ne_nil cs)
      | cons s rest =>
        cases rest with
        | nil =>
          have hins : '\n' ∉ s := by
            rw [hs, List.getLastD_cons] at ih
            simpa using ih
          rw [splitNl_cons_other hc, hs]
          simp only [List.getLastD_cons, List.getLastD]
          intro hmem
          rcases List.mem_cons.mp hmem with h1 | h2
          · exact hc h1.symm
          · exact hins h2
        | cons s2 r2 =>
          rw [splitNl_cons_other hc, hs]
          rw [hs, List.getLastD_cons, List.getLastD_cons] at ih
          simp only [List.getLastD_cons]
          exact ih

theorem getLastD_append_of_ne_nil {α : Type} {ys : List α} (h : ys ≠ [])
    (xs : List α) (d : α) : (xs ++ ys).getLastD d = ys.getLastD d := by
  induction xs generalizing d with
  | nil => rfl
  | cons x xs ih =>
    rw [List.cons_append, List.getLastD_cons, ih x]
    exact getLastD_of_ne_nil h x d

/-- The handler's chunk-by-chunk processing with carried buffer equals the
single-pass description of the concatenated stream: the emitted event
sequence does not depend on how the stream is cut into read chunks. -/
theorem pullStreamGo_eq_processedOf (parse : List Char → Option DaemonLine)
    (chunks : List (List Char)) :
    ∀ (buffer : List Char), '\n' ∉ buffer →
      pullStreamGo parse buffer chunks = processedOf parse (buffer ++ chunks.flatten) := by
  induction chunks with
  | nil =>
    intro buffer h
    simp only [pullStreamGo, List.flatten_nil, List.append_nil, processedOf,
      splitNl_of_no_newline h]
    simp [List.getLastD_cons]
  | cons c cs ih =>
    intro buffer h
    simp only [pullStreamGo]
    rw [ih _ (no_newline_getLastD_splitNl (buffer ++ c))]
    rw [List.flatten_cons, ← List.append_assoc]
    simp only [processedOf]
    rw [splitNl_append_split (buffer ++ c) cs.flatten,
      splitNl_append_split ((splitNl (buffer ++ c)).getLastD []) cs.flatten,
      splitNl_of_no_newline (no_newline_getLastD_splitNl (buffer ++ c))]
    have hG : glueSeg ((splitNl (buffer ++ c)).getLastD []) (splitNl cs.flatten) ≠ [] :=
      glueSeg_ne_nil _ _
    rw [List.dropLast_append_of_ne_nil _ hG, getLastD_append_of_ne_nil hG]
    simp [List.filterMap_append, List.getLastD_cons]

theorem splitNl_line_append {a : List Char} (h : '\n' ∉ a) (rest : List Char) :
    splitNl (a ++ '\n' :: rest) = a :: splitNl rest := by
  rw [splitNl_append_split, splitNl_of_no_newline h]
  simp [glueSeg, splitNl_cons_newline, List.getLastD_cons]

/-- C2 counterexample: the final unterminated segment is not discarded.
For the stream `"alpha\nbeta"` (no trailing newline) the handler emits an
event for the complete line `alpha`, then at end of stream parses the
leftover `beta` and emits a reduced event for it as well (plus the
synthetic completion event) — the claim predicts no event for `beta`. -/
theorem C2_counterexample :
    pullStreamEvents c2Parse [("alpha\nbeta").data] =
      [{ status := "alpha" }, { status := "beta" }, finalSuccessEvent] ∧
      (pullStreamEvents c2Parse [("alpha\nbeta").data]).length = 3 := by
  constructor <;> decide

/-- C2 (amended): for every input byte stream, however it is cut into read
chunks, the decoder emits exactly one progress event per complete
(newline-terminated) nonblank well-formed line, in stream order, with
malformed and blank lines dropped; the final unterminated segment is not
discarded but flushed at stream end — emitted as a reduced status/done
event when it is nonblank and well-formed JSON, dropped otherwise — and a
synthetic completion event is appended. -/
theorem C2_decoder_amended (parse : List Char → Option DaemonLine)
    (chunks : List (List Char)) :
    pullStreamEvents parse chunks =
      ((splitNl chunks.flatten).dropLast).filterMap (emitLine parse) ++
        flushLeftover parse ((splitNl chunks.flatten).getLastD []) ++
        [finalSuccessEvent] := by
  have h := pullStreamGo_eq_processedOf parse chunks [] (by simp)
  simpa [pullStreamEvents, processedOf] using h

/-- C10: whenever the daemon stream is read to end-of-stream without a
transport error, the proxy's last emitted event is the synthetic
`{ done: true, status: 'success' }` — regardless of whether any daemon
line ever carried status `success`. -/
theorem C10_final_success (parse : List Char → Option DaemonLine)
    (chunks : List (List Char)) :
    (pullStreamEvents parse chunks).getLast? = some finalSuccessEvent := by
  have h := pullStreamGo_eq_processedOf parse chunks [] (by simp)
  simp only [List.nil_append] at h
  rw [pullStreamEvents, h, processedOf, List.getLast?_concat]

/-- C6: a malformed (unparseable) line between two well-formed lines is
silently skipped: the decoder emits events for the two well-formed lines
only (plus the synthetic completion event) and the malformed line aborts
nothing. -/
theorem C6_malformed_line_skipped (parse : List Char → Option DaemonLine)
    (l1 l2 l3 : List Char) (d1 d3 : DaemonLine) (chunks : List (List Char))
    (h1 : parse l1 = some d1) (h2 : parse l2 = none) (h3 : parse l3 = some d3)
    (hb1 : isBlank l1 = false) (hb3 : isBlank l3 = false)
    (hn1 : '\n' ∉ l1) (hn2 : '\n' ∉ l2) (hn3 : '\n' ∉ l3)
    (hj : chunks.flatten = l1 ++ '\n' :: (l2 ++ '\n' :: (l3 ++ ['\n']))) :
    pullStreamEvents parse chunks =
      [mkProgressData d1, mkProgressData d3, finalSuccessEvent] := by
  have h := pullStreamGo_eq_processedOf parse chunks [] (by simp)
  simp only [List.nil_append] at h
  rw [pullStreamEvents, h, processedOf, hj]
  rw [splitNl_line_append hn1, splitNl_line_append hn2]
  have h3' : l3 ++ ['\n'] = l3 ++ '\n' :: ([] : List Char) := rfl
  rw [h3', splitNl_line_append hn3, splitNl_nil]
  have hfl : flushLeftover parse ([] : List Char) = [] := by
    simp [flushLeftover, isBlank]
  cases hb2 : isBlank l2 <;>
    simp [List.filterMap_cons, emitLine, hfl, h1, h2, h3, hb1, hb3, hb2,
      List.getLastD_cons]

/-- Witness for C6 at a concrete stream: `alpha`, an unparseable `junk`
line, `gamma`. -/
theorem C6_malformed_line_skipped_witness :
    pullStreamEvents c6Parse [("alpha\njunk\ngamma\n").data] =
      [mkProgressData { status := some "alpha" },
        mkProgressData { status := some "gamma" }, finalSuccessEvent] :=
  C6_malformed_line_skipped c6Parse "alpha".data "junk".data "gamma".data
    { status := some "alpha" } { status := some "gamma" }
    [("alpha\njunk\ngamma\n").data]
    (by decide) (by decide) (by decide) (by decide) (by decide)
    (by decide) (by decide) (by decide) (by decide)

/-!
## Claims about the download task state machine and the registry
-/

/-- C7: a task whose stream delivers
`[{status:"downloading", completed:50, total:100}, {status:"success"}]`
(forwarded through the proxy) ends `completed` with progress `100`; the
intermediate event yields progress `50` computed from `completed/total`. -/
theorem C7_success_sequence :
    (clientRun "llama3.2-0" "llama3.2"
        (pullStreamEvents c7Parse [("dl50\nok\n").data])).item.status =
      DownloadStatus.completed ∧
    (clientRun "llama3.2-0" "llama3.2"
        (pullStreamEvents c7Parse [("dl50\nok\n").data])).item.progress = 100 ∧
    (runTrace (initialTask "llama3.2-0" "llama3.2" 0)
        [.fetchOk, .line (mkProgressData
          { status := some "downloading", completed := some 50,
            total := some 100 })]).item.progress = 50 := by
  refine ⟨?_, ?_, ?_⟩ <;> decide

/-- C5 counterexample: when the daemon's own stream ends with a
`success` line, the proxy forwards it flagged `done` and then appends its
synthetic success event, so the client requests the `/api/models` refresh
twice for one completed task — not exactly once. -/
theorem C5_counterexample :
    (clientRun "llama3.2-0" "llama3.2"
        (pullStreamEvents c5Parse [("ok\n").data])).item.status =
      DownloadStatus.completed ∧
    (clientRun "llama3.2-0" "llama3.2"
        (pullStreamEvents c5Parse [("ok\n").data])).mutateCount = 2 := by
  constructor <;> decide

/-- C5 (amended): a refresh of the installed-models list is requested
exactly on processing a `done`/`success` event and on stream end while the
task is still `downloading` — hence a completed task requests at least
one refresh but may request one per success event received (typically
two: the daemon's own success line and the proxy's synthetic final
event).  Entering `error` (failed) or `cancelled` requests none. -/
theorem C5_refresh_amended (s : TaskState) (d : ProgressData) (m : String) :
    ((step s (.line d)).mutateCount =
      if s.streamOpen && !jsTruthyStr d.error && d.done && (d.status == "success")
      then s.mutateCount + 1 else s.mutateCount) ∧
    ((step s .cancel).mutateCount = s.mutateCount) ∧
    ((step s (.transportErr m)).mutateCount = s.mutateCount) ∧
    ((step s .fetchOk).mutateCount = s.mutateCount) ∧
    ((step s .streamEnd).mutateCount =
      if s.streamOpen && decide (s.item.status = DownloadStatus.downloading)
      then s.mutateCount + 1 else s.mutateCount) := by
  refine ⟨?_, ?_, ?_, ?_, ?_⟩
  · cases hso : s.streamOpen
    · simp [step, hso]
    · cases he : jsTruthyStr d.error
      · cases hd : d.done && (d.status == "success") <;>
          simp [step, hso, he, hd]
      · simp [step, hso, he]
  · cases hc : s.hasController
    · simp [step, hc]
    · cases hso : s.streamOpen <;> simp [step, hc, hso]
  · cases hso : s.streamOpen <;> simp [step, hso]
  · cases hso : s.streamOpen <;> simp [step, hso]
  · cases hso : s.streamOpen
    · simp [step, hso]
    · by_cases hd : s.item.status = DownloadStatus.downloading <;>
        simp [step, hso, hd]

/-- C4 counterexample: a task that entered the terminal `completed` status
from an in-stream success event, while its stream is still open, moves to
`cancelled` when a cancellation request aborts the still-pending read —
the cancellation after a terminal status is not a no-op. -/
theorem C4_counterexample :
    (runTrace (initialTask "llama3.2-0" "llama3.2" 0)
        [.fetchOk, .line finalSuccessEvent]).item.status =
      DownloadStatus.completed ∧
    (runTrace (initialTask "llama3.2-0" "llama3.2" 0)
        [.fetchOk, .line finalSuccessEvent, .cancel]).item.status =
      DownloadStatus.cancelled := by
  constructor <;> decide

/-- C4 (amended): once the task's supervising routine has finished and its
abort controller is gone — which is the case on every terminal path
except a `completed` reached from an in-stream success event with the
stream still open — no later event changes the task at all; in particular
cancellation requests are no-ops.  A task completed with its stream still
open may yet be moved to `cancelled` (or `error`). -/
theorem C4_terminal_after_close (s : TaskState) (ev : ClientEv)
    (h1 : s.streamOpen = false) (h2 : s.hasController = false) :
    (step s ev).item = s.item ∧ (step s ev).mutateCount = s.mutateCount ∧
    (step s ev).streamOpen = false ∧ (step s ev).hasController = false := by
  cases ev <;> simp [step, h1, h2]

/-- Witness for C4 (amended): after a transport error ended the routine,
a cancellation request leaves the failed task untouched. -/
theorem C4_terminal_after_close_witness :
    ((runTrace (initialTask "m-0" "m" 0) [.fetchOk, .transportErr "boom"]).streamOpen
       = false) ∧
    ((step (runTrace (initialTask "m-0" "m" 0) [.fetchOk, .transportErr "boom"])
        ClientEv.cancel).item =
      (runTrace (initialTask "m-0" "m" 0) [.fetchOk, .transportErr "boom"]).item) :=
  ⟨by decide,
    (C4_terminal_after_close
      (runTrace (initialTask "m-0" "m" 0) [.fetchOk, .transportErr "boom"])
      ClientEv.cancel (by decide) (by decide)).1⟩

theorem nonTerminalStatus_iff (st : DownloadStatus) :
    (st ≠ DownloadStatus.completed ∧ st ≠ DownloadStatus.error ∧
      st ≠ DownloadStatus.cancelled) ↔
    (st = DownloadStatus.pending ∨ st = DownloadStatus.downloading) := by
  cases st <;> simp

/-- C9: `clearCompleted` removes exactly the tasks in a terminal status
(`completed`, `error`, `cancelled`) and keeps every `pending` or
`downloading` task — same records, same field values, original order. -/
theorem C9_clearTerminal (ds : List DownloadItem) (d : DownloadItem) :
    (d ∈ clearCompleted ds ↔
      d ∈ ds ∧ (d.status = DownloadStatus.pending ∨
        d.status = DownloadStatus.downloading)) ∧
    (clearCompleted ds).Sublist ds := by
  refine ⟨?_, List.filter_sublist ds⟩
  rw [clearCompleted]
  simp only [List.mem_filter, decide_eq_true_eq]
  exact and_congr_right fun _ => nonTerminalStatus_iff d.status

/-- Sanity check for the integer percent computation: for nonzero totals it
is exactly `Math.round((completed/total)*100)` over the rationals. -/
theorem roundPercent_eq_jsRound (c t : Nat) (h : t ≠ 0) :
    (roundPercent c t : ℤ) = jsRound ((c : ℚ) / (t : ℚ) * 100) := by
  have ht : (t : ℚ) ≠ 0 := Nat.cast_ne_zero.mpr h
  have harg : (c : ℚ) / (t : ℚ) * 100 + 1/2 =
      ((200 * c + t : ℕ) : ℚ) / ((2 * t : ℕ) : ℚ) := by
    push_cast
    field_simp
    ring
  rw [jsRound, harg, Rat.floor_natCast_div_natCast, roundPercent]
  push_cast [Int.ofNat_tdiv]
  rfl

/-!
## Claims about task identifiers (`startDownload` id minting)
-/

/-- C3 counterexample: two `startDownload` calls for the same model name
in the same millisecond mint the same identifier
(`` `${modelName}-${Date.now()}` ``), and the registry then holds two
tasks with identical ids — task identifiers are not unique. -/
theorem C3_counterexample :
    (startDownload { downloads := [] } "llama3.2" 1730000000000).1 =
      (startDownload (startDownload { downloads := [] } "llama3.2" 1730000000000).2
        "llama3.2" 1730000000000).1 ∧
    ((startDownload (startDownload { downloads := [] } "llama3.2" 1730000000000).2
        "llama3.2" 1730000000000).2.downloads.map DownloadItem.id) =
      [mkDownloadId "llama3.2" 1730000000000,
        mkDownloadId "llama3.2" 1730000000000] := by
  constructor <;> rfl

/-- Value of a decimal digit character. -/
def digitVal (c : Char) : Nat := c.toNat - 48

/-- Accumulate a decimal digit string back into a number. -/
def digitsVal (l : List Char) : Nat :=
  l.foldl (fun a c => a * 10 + digitVal c) 0

theorem digitVal_digitChar : ∀ d : Nat, d < 10 → digitVal (Nat.digitChar d) = d := by
  decide

theorem toDigitsCore_append_acc :
    ∀ (fuel n : Nat) (ds : List Char),
      Nat.toDigitsCore 10 fuel n ds = Nat.toDigitsCore 10 fuel n [] ++ ds := by
  intro fuel
  induction fuel with
  | zero => intro n ds; rfl
  | succ f ih =>
    intro n ds
    show Nat.toDigitsCore 10 (f + 1) n ds = Nat.toDigitsCore 10 (f + 1) n [] ++ ds
    simp only [Nat.toDigitsCore]
    by_cases h : n / 10 = 0
    · simp [h]
    · simp only [h, if_neg h]
      rw [ih (n / 10) [Nat.digitChar (n % 10)], ih (n / 10) (Nat.digitChar (n % 10) :: ds)]
      simp

theorem digitsVal_toDigitsCore :
    ∀ (fuel n : Nat), n < fuel →
      digitsVal (Nat.toDigitsCore 10 fuel n []) = n := by
  intro fuel
  induction fuel with
  | zero => intro n hn; omega
  | succ f ih =>
    intro n hn
    simp only [Nat.toDigitsCore]
    by_cases h : n / 10 = 0
    · have hlt : n < 10 := by omega
      simp only [h, if_pos rfl]
      show digitsVal [Nat.digitChar (n % 10)] = n
      rw [digitsVal]
      simp only [List.foldl_cons, List.foldl_nil]
      rw [Nat.mod_eq_of_lt hlt, digitVal_digitChar n hlt]
      omega
    · have hn10 : n / 10 < f := by omega
      simp only [if_neg h]
      rw [toDigitsCore_append_acc]
      show digitsVal (Nat.toDigitsCore 10 f (n / 10) [] ++ [Nat.digitChar (n % 10)]) = n
      rw [digitsVal, List.foldl_append]
      have hfold := ih (n / 10) hn10
      rw [digitsVal] at hfold
      rw [hfold]
      simp only [List.foldl_cons, List.foldl_nil]
      rw [digitVal_digitChar (n % 10) (Nat.mod_lt n (by omega))]
      omega

theorem natRepr_injective {m n : Nat} (h : Nat.repr m = Nat.repr n) : m = n := by
  have hdata : Nat.toDigits 10 m = Nat.toDigits 10 n := by
    have := congrArg String.data h
    simpa [Nat.repr, List.asString] using this
  have h1 := digitsVal_toDigitsCore (m + 1) m (Nat.lt_succ_self m)
  have h2 := digitsVal_toDigitsCore (n + 1) n (Nat.lt_succ_self n)
  rw [show Nat.toDigitsCore 10 (m + 1) m [] = Nat.toDigits 10 m from rfl, hdata] at h1
  rw [show Nat.toDigitsCore 10 (n + 1) n [] = Nat.toDigits 10 n from rfl] at h2
  omega

theorem stringData_inj {a b : String} (h : a.data = b.data) : a = b := by
  cases a; cases b; exact congrArg String.mk h

theorem append_first_cons_inj {α : Type} {c : α} :
    ∀ {a1 : List α} {a2 b1 b2 : List α}, a1 ++ c :: b1 = a2 ++ c :: b2 →
      c ∉ a1 → c ∉ a2 → a1 = a2 ∧ b1 = b2 := by
  intro a1
  induction a1 with
  | nil =>
    intro a2 b1 b2 h h1 h2
    cases a2 with
    | nil => simpa using h
    | cons x a2 =>
      simp only [List.nil_append, List.cons_append, List.cons.injEq] at h
      obtain ⟨hcx, -⟩ := h
      subst hcx
      exact absurd (List.mem_cons_self c a2) h2
  | cons y a1 ih =>
    intro a2 b1 b2 h h1 h2
    cases a2 with
    | nil =>
      simp only [List.cons_append, List.nil_append, List.cons.injEq] at h
      rw [h.1] at h1
      exact absurd (List.mem_cons_self c a1) h1
    | cons x a2 =>
      simp only [List.cons_append, List.cons.injEq] at h
      obtain ⟨hxy, hrest⟩ := h
      have h1' : c ∉ a1 := fun m => h1 (List.mem_cons_of_mem _ m)
      have h2' : c ∉ a2 := fun m => h2 (List.mem_cons_of_mem _ m)
      obtain ⟨ha, hb⟩ := ih hrest h1' h2'
      exact ⟨by rw [hxy, ha], hb⟩

theorem append_last_cons_inj {α : Type} {c : α} {a1 a2 b1 b2 : List α}
    (h : a1 ++ c :: b1 = a2 ++ c :: b2) (h1 : c ∉ b1) (h2 : c ∉ b2) :
    a1 = a2 ∧ b1 = b2 := by
  have hr := congrArg List.reverse h
  simp only [List.reverse_append, List.reverse_cons] at hr
  rw [List.append_assoc, List.append_assoc] at hr
  simp only [List.singleton_append] at hr
  have hb1 : c ∉ b1.reverse := by simpa using h1
  have hb2 : c ∉ b2.reverse := by simpa using h2
  obtain ⟨hb, ha⟩ := append_first_cons_inj hr hb1 hb2
  constructor
  · have := congrArg List.reverse ha
    simpa using this
  · have := congrArg List.reverse hb
    simpa using this

theorem digitChar_ne_hyphen : ∀ k : Nat, k < 10 → Nat.digitChar k ≠ '-' := by
  decide

theorem hyphen_not_mem_toDigitsCore :
    ∀ (fuel n : Nat) (ds : List Char), '-' ∉ ds →
      '-' ∉ Nat.toDigitsCore 10 fuel n ds := by
  intro fuel
  induction fuel with
  | zero => intro n ds h; exact h
  | succ f ih =>
    intro n ds h
    have hd : '-' ∉ Nat.digitChar (n % 10) :: ds := by
      intro hm
      rcases List.mem_cons.mp hm with h1 | h2
      · exact digitChar_ne_hyphen (n % 10) (Nat.mod_lt n (by omega)) h1.symm
      · exact h h2
    simp only [Nat.toDigitsCore]
    by_cases h10 : n / 10 = 0
    · simpa [h10] using hd
    · simp only [if_neg h10]
      exact ih (n / 10) _ hd

/-- The decimal digit string of a number never contains the id scheme's
separator character. -/
theorem hyphen_not_mem_repr (t : Nat) : '-' ∉ (Nat.repr t).data := by
  have hdata : (Nat.repr t).data = Nat.toDigits 10 t := by
    simp [Nat.repr, List.asString]
  rw [hdata]
  exact hyphen_not_mem_toDigitsCore (t + 1) t [] (by simp)

/-- `` `${modelName}-${Date.now()}` `` determines the (name, timestamp)
pair: the timestamp digits contain no hyphen, so the last hyphen of the
id separates the two components unambiguously. -/
theorem mkDownloadId_inj {n1 n2 : String} {t1 t2 : Nat}
    (h : mkDownloadId n1 t1 = mkDownloadId n2 t2) : n1 = n2 ∧ t1 = t2 := by
  have hd := congrArg String.data h
  simp only [mkDownloadId, String.data_append, List.append_assoc] at hd
  simp only [show ("-" : String).data = ['-'] from rfl, List.singleton_append] at hd
  obtain ⟨hn, ht⟩ :=
    append_last_cons_inj hd (hyphen_not_mem_repr t1) (hyphen_not_mem_repr t2)
  exact ⟨stringData_inj hn,
    natRepr_injective (show Nat.repr t1 = Nat.repr t2 from stringData_inj ht)⟩

/-- C3 (amended): identifiers minted by `startDownload` are distinct
whenever the two starts differ in model name or in their `Date.now()`
millisecond timestamp — in either coordinate or in both.  Only two starts
for the same name within the same millisecond collide (see the
counterexample), so identifiers are unique exactly up to the
(name, millisecond) pair. -/
theorem C3_id_uniqueness_amended (n1 n2 : String) (t1 t2 : Nat)
    (h : n1 ≠ n2 ∨ t1 ≠ t2) : mkDownloadId n1 t1 ≠ mkDownloadId n2 t2 := by
  intro he
  obtain ⟨hn, ht⟩ := mkDownloadId_inj he
  rcases h with h | h
  · exact h hn
  · exact h ht

/-- Witness for C3 (amended): distinct ids when both name and timestamp
differ, when only the timestamp differs, and when only the name
differs. -/
theorem C3_id_uniqueness_amended_witness :
    (("llama3.2" : String) ≠ "qwen" ∨ (1730000000000 : Nat) ≠ 1730000000001) ∧
    mkDownloadId "llama3.2" 1730000000000 ≠ mkDownloadId "qwen" 1730000000001 ∧
    mkDownloadId "llama3.2" 1730000000000 ≠
      mkDownloadId "llama3.2" 1730000000001 ∧
    mkDownloadId "llama3.2" 1730000000000 ≠ mkDownloadId "qwen" 1730000000000 :=
  ⟨Or.inl (by decide),
    C3_id_uniqueness_amended "llama3.2" "qwen" 1730000000000 1730000000001
      (Or.inl (by decide)),
    C3_id_uniqueness_amended "llama3.2" "llama3.2" 1730000000000 1730000000001
      (Or.inr (by decide)),
    C3_id_uniqueness_amended "llama3.2" "qwen" 1730000000000 1730000000000
      (Or.inl (by decide))⟩

/-!
## Claims about the model state aggregation
-/

/-- C1 counterexample: with a unified view already published, a refresh in
which the proxy answers the daemon failure with a 500 JSON error body does
NOT leave the view unchanged — the fetcher resolves (it never checks
`res.ok`), SWR replaces the cached data with the error body, and the
exposed models list becomes empty, emptying the unified view. -/
theorem C1_counterexample :
    exposedModels sampleSwrState = [sampleModel] ∧
    exposedModels (refreshInstalled sampleSwrState
      (.respond (modelsProxy (.fail "connection refused")))) = [] ∧
    modelsWithState (exposedModels (refreshInstalled sampleSwrState
      (.respond (modelsProxy (.fail "connection refused"))))) [] 0 = [] :=
  ⟨rfl, rfl, rfl⟩

/-- C1 (amended): the previously published model list survives a refresh
only when the fetch itself rejects (network-level failure) — SWR then
keeps the stale data.  When the daemon fetch fails and the proxy returns
its non-2xx JSON error body, the fetcher resolves with that body and the
exposed models list is replaced by the empty list. -/
theorem C1_refresh_failure_amended (s : SwrState) (e msg : String) :
    exposedModels (refreshInstalled s (.networkFail e)) = exposedModels s ∧
    exposedModels (refreshInstalled s
      (.respond (modelsProxy (.fail msg)))) = [] :=
  ⟨rfl, rfl⟩

theorem foldl_runningMap_isSome (name : String) (l : List OllamaRunningModel) :
    ∀ acc : Option OllamaRunningModel,
      (l.foldl (fun acc m => if m.model = name then some m else acc) acc).isSome
          = true ↔
        (acc.isSome = true ∨ ∃ r ∈ l, r.model = name) := by
  induction l with
  | nil => intro acc; simp
  | cons m l ih =>
    intro acc
    rw [List.foldl_cons, ih]
    by_cases hm : m.model = name
    · simp [hm]
    · simp [hm]

theorem foldl_runningMap_eq_some (name : String) (l : List OllamaRunningModel) :
    ∀ (acc : Option OllamaRunningModel) (r : OllamaRunningModel),
      l.foldl (fun acc m => if m.model = name then some m else acc) acc = some r →
      acc = some r ∨ (r ∈ l ∧ r.model = name) := by
  induction l with
  | nil => intro acc r h; exact Or.inl h
  | cons m l ih =>
    intro acc r h
    rw [List.foldl_cons] at h
    rcases ih _ r h with h1 | h2
    · by_cases hm : m.model = name
      · rw [if_pos hm] at h1
        have hr : m = r := by simpa using h1
        exact Or.inr ⟨hr ▸ List.mem_cons_self m l, hr ▸ hm⟩
      · rw [if_neg hm] at h1
        exact Or.inl h1
    · exact Or.inr ⟨List.mem_cons_of_mem m h2.1, h2.2⟩

/-- C8: the unified view marks a model loaded iff a running record with
exactly matching name exists; a loaded model's `vram_gb`/`ram_gb` are
derived from that record's byte counts and `expires_in_seconds` from its
expiry; a model absent from the running set reports `loaded = false` with
no vram/ram/expiry values.  Concretely `vram = 4 GiB` yields
`vram_gb = 4`, and an expiry 5 minutes from now yields 300 seconds. -/
theorem C8_unified_view (installed : List OllamaModel)
    (running : List OllamaRunningModel) (now : Int) (m : OllamaModel) :
    (modelsWithState installed running now = installed.map (joinOne running now)) ∧
    ((joinOne running now m).loaded = true ↔ ∃ r ∈ running, r.model = m.name) ∧
    (runningMapGet running m.name = none →
      (joinOne running now m).loaded = false ∧
      (joinOne running now m).vram_gb = none ∧
      (joinOne running now m).ram_gb = none ∧
      (joinOne running now m).expires_at = none ∧
      (joinOne running now m).expires_in_seconds = none) ∧
    (∀ r, runningMapGet running m.name = some r →
      r ∈ running ∧ r.model = m.name ∧
      (joinOne running now m).loaded = true ∧
      (joinOne running now m).vram_gb = some (bytesToGB r.size_vram) ∧
      (joinOne running now m).ram_gb = some (bytesToGB r.size) ∧
      (joinOne running now m).expires_at = r.expires_at ∧
      (joinOne running now m).expires_in_seconds =
        getTimeUntilExpiry r.expires_at now) ∧
    bytesToGB (4 * 1024 ^ 3) = 4 ∧
    getTimeUntilExpiry (some (now + 300000)) now = some 300 := by
  refine ⟨rfl, ?_, ?_, ?_, ?_, ?_⟩
  · have h := foldl_runningMap_isSome m.name running none
    simpa [joinOne, runningMapGet] using h
  · intro h
    simp [joinOne, h]
  · intro r h
    have hmem : r ∈ running ∧ r.model = m.name := by
      rw [runningMapGet] at h
      rcases foldl_runningMap_eq_some m.name running none r h with h1 | h2
      · exact absurd h1 (by simp)
      · exact h2
    refine ⟨hmem.1, hmem.2, ?_⟩
    cases hre : r.expires_at <;>
      simp [joinOne, h, hre, getTimeUntilExpiry]
  · rw [bytesToGB, roundDec, jsRound]; norm_num
  · simp only [getTimeUntilExpiry]
    rw [show now + 300000 - now = 300000 from by ring]
    norm_num [show Int.fdiv 300000 1000 = 300 from by decide]

/-- Witness for C8 at §8's example: installed `{A: 10GB}`, running
`{A: vram = 4GB, expires_at = now + 5min}` reports loaded with
`vram_gb = 4` and 300 seconds to expiry; with an empty running set the
same model is not loaded and has no vram/expiry values. -/
theorem C8_unified_view_witness :
    (joinOne [runningA] 0 installedA).loaded = true ∧
    (joinOne [runningA] 0 installedA).vram_gb = some 4 ∧
    (joinOne [runningA] 0 installedA).expires_in_seconds = some 300 ∧
    (joinOne [] 0 installedA).loaded = false ∧
    (joinOne [] 0 installedA).vram_gb = none ∧
    (joinOne [] 0 installedA).expires_in_seconds = none := by
  have h4 := C8_unified_view [] [runningA] 0 installedA
  have hsome := h4.2.2.2.1 runningA (by rfl)
  have h0 := C8_unified_view [] [] 0 installedA
  have hnone := h0.2.2.1 (by rfl)
  refine ⟨hsome.2.2.1, ?_, ?_, hnone.1, hnone.2.1, hnone.2.2.2.2⟩
  · rw [hsome.2.2.2.1, show runningA.size_vram = 4 * 1024 ^ 3 from rfl,
      bytesToGB, roundDec, jsRound]
    norm_num
  · rw [hsome.2.2.2.2.2.2]
    simp only [getTimeUntilExpiry, runningA]
    norm_num [show Int.fdiv 300000 1000 = 300 from by decide]
